import Mathlib

/-!
Shallow embedding of the knowledge-ledger core of the bio-architect
repository, and verification of its specification claims.

The embedding follows the source:
- `src/databases/datatypes/knowledge/models.py` (the `Knowledge`,
  `KnowledgeTag`, `KnowledgeLink` pydantic models and the confidence
  validator),
- `src/databases/datatypes/knowledge/repository.py` (the sqlmodel-backed
  `KnowledgeRepository` used by `cli/databases/knowledge.py`),
- `src/databases/repositories/knowledge.py` (the raw-SQL
  `KnowledgeRepository` used by `scripts/knowledge.py`), and
- the CLI workflows `cmd_create` (cli) and `cmd_supersede` (scripts).

Identifiers (UUIDs in the source) are modelled as `Nat`; timestamps as
`Nat`; the `confidence` float as `Rat` (only order comparisons against
0 and 1 are performed on it, on which IEEE doubles and the rationals
they denote agree).  The SQLite store is modelled as lists of rows in
insertion (rowid) order; a `SELECT` without `ORDER BY` scans in that
order, `SELECT DISTINCT col` keeps the first occurrence of each value.
-/

namespace BioArch

/-- `KnowledgeType` enum from `models.py`. -/
inductive KnowledgeType where
  | insight
  | recommendation
  | contraindication
  | memory
deriving DecidableEq, Repr

/-- `KnowledgeStatus` enum from `models.py`. -/
inductive KnowledgeStatus where
  | active
  | deprecated
deriving DecidableEq, Repr

/-- `LinkType` enum from `models.py`. -/
inductive LinkType where
  | snp
  | biomarker
  | ingredient
  | supplement
  | protocol
  | knowledge
deriving DecidableEq, Repr

/-- A row of the `knowledge` table / the `Knowledge` pydantic model. -/
structure KnowledgeRow where
  id : Nat
  type : KnowledgeType
  status : KnowledgeStatus
  summary : String
  content : String
  confidence : Rat
  supersedes_id : Option Nat
  supersession_reason : Option String
  created_at : Nat
deriving DecidableEq, Repr

/-- A row of the `knowledge_tags` table / the `KnowledgeTag` model. -/
structure KnowledgeTagRow where
  id : Nat
  knowledge_id : Nat
  tag : String
deriving DecidableEq, Repr

/-- A row of the `knowledge_links` table / the `KnowledgeLink` model. -/
structure KnowledgeLinkRow where
  id : Nat
  knowledge_id : Nat
  link_type : LinkType
  target_id : Nat
deriving DecidableEq, Repr

/-- The SQLite database state visible to the knowledge ledger: the three
knowledge tables plus the five foreign tables probed by link-target
validation (only their `id` columns matter to the ledger).  `nextId`
models the source of fresh row ids (`uuid4` in the source): each freshly
constructed row consumes one id from the counter. -/
structure Store where
  knowledge : List KnowledgeRow
  tags : List KnowledgeTagRow
  links : List KnowledgeLinkRow
  snps : List Nat
  biomarkers : List Nat
  ingredients : List Nat
  supplement_labels : List Nat
  supplement_protocols : List Nat
  nextId : Nat
deriving Repr

/-- Structured errors raised by the ledger operations
(`ValueError("Knowledge entry not found: ...")` in the repositories,
`"Link target does not exist: ..."` in the CLI workflows). -/
inductive LedgerError where
  | notFound (id : Nat)
  | linkTargetNotFound (link_type : LinkType) (target_id : Nat)
deriving DecidableEq, Repr

/-- `Knowledge.validate_confidence` from `models.py`:
`if v < 0.0 or v > 1.0: raise ValueError(...)`; `return v`. -/
def validate_confidence (v : Rat) : Except String Rat :=
  if v < 0 ∨ v > 1 then
    Except.error "confidence must be between 0.0 and 1.0"
  else
    Except.ok v

/-- Constructing a `Knowledge` pydantic model: all fields are
type-checked by the embedding itself; the only field validator in
`models.py` is `validate_confidence`. -/
def knowledge_model_validate (k : KnowledgeRow) : Except String KnowledgeRow :=
  match validate_confidence k.confidence with
  | Except.error e => Except.error e
  | Except.ok _ => Except.ok k

/-- The `table_map` dict of `validate_link_target_exists`
(identical in `datatypes/knowledge/repository.py` and
`scripts/knowledge.py`). -/
def table_map (lt : LinkType) : String :=
  match lt with
  | LinkType.snp => "snps"
  | LinkType.biomarker => "biomarkers"
  | LinkType.ingredient => "ingredients"
  | LinkType.supplement => "supplement_labels"
  | LinkType.protocol => "supplement_protocols"
  | LinkType.knowledge => "knowledge"

/-- The `id` column of a named table of the store, as probed by
`SELECT 1 FROM {table} WHERE id = :id`. -/
def tableIds (st : Store) (table : String) : List Nat :=
  if table = "snps" then st.snps
  else if table = "biomarkers" then st.biomarkers
  else if table = "ingredients" then st.ingredients
  else if table = "supplement_labels" then st.supplement_labels
  else if table = "supplement_protocols" then st.supplement_protocols
  else if table = "knowledge" then st.knowledge.map (fun k => k.id)
  else []

/-- `validate_link_target_exists`: map the link type to its table via
`table_map`, then probe that table for a row with the target id. -/
def validate_link_target_exists (st : Store) (lt : LinkType) (tid : Nat) : Bool :=
  (tableIds st (table_map lt)).any (fun x => x == tid)

/-- `KnowledgeRepository.get_knowledge` (sqlmodel `session.get`):
point lookup by primary key, first row with the id. -/
def get_knowledge (st : Store) (kid : Nat) : Option KnowledgeRow :=
  st.knowledge.find? (fun k => k.id == kid)

/-- `KnowledgeRepository.list_active` (datatypes repository):
`select(Knowledge).where(status == ACTIVE)` — no `order_by`, rows come
back in table order. -/
def list_active (st : Store) : List KnowledgeRow :=
  st.knowledge.filter (fun k => decide (k.status = KnowledgeStatus.active))

/-- Ordering used by `order_by(KnowledgeTag.tag)`. -/
def tagAsc (a b : KnowledgeTagRow) : Prop := a.tag ≤ b.tag

instance : DecidableRel tagAsc := fun a b => by
  unfold tagAsc; infer_instance

/-- `KnowledgeRepository.get_tags_for_knowledge`: tags owned by the
given knowledge id, ordered by tag value. -/
def get_tags_for_knowledge (st : Store) (kid : Nat) : List KnowledgeTagRow :=
  List.insertionSort tagAsc (st.tags.filter (fun t => t.knowledge_id == kid))

/-- The stored string value of a `LinkType` (`link_type.value`). -/
def linkTypeValue (lt : LinkType) : String :=
  match lt with
  | LinkType.snp => "snp"
  | LinkType.biomarker => "biomarker"
  | LinkType.ingredient => "ingredient"
  | LinkType.supplement => "supplement"
  | LinkType.protocol => "protocol"
  | LinkType.knowledge => "knowledge"

/-- Ordering used by `order_by(KnowledgeLink.link_type)` (the stored
enum value string). -/
def linkTypeAsc (a b : KnowledgeLinkRow) : Prop :=
  linkTypeValue a.link_type ≤ linkTypeValue b.link_type

instance : DecidableRel linkTypeAsc := fun a b => by
  unfold linkTypeAsc; infer_instance

/-- `KnowledgeRepository.get_links_for_knowledge`: links owned by the
given knowledge id, ordered by link type. -/
def get_links_for_knowledge (st : Store) (kid : Nat) : List KnowledgeLinkRow :=
  List.insertionSort linkTypeAsc (st.links.filter (fun l => l.knowledge_id == kid))

/-- `SELECT DISTINCT`: keep the first occurrence of each value, in scan
order (`seen` accumulates the values already emitted). -/
def distinctAux (seen : List Nat) : List Nat → List Nat
  | [] => []
  | a :: l => if a ∈ seen then distinctAux seen l else a :: distinctAux (a :: seen) l

/-- `SELECT DISTINCT` over a column. -/
def distinct (l : List Nat) : List Nat := distinctAux [] l

/-- `KnowledgeRepository.get_by_tag` (datatypes repository): select the
distinct `knowledge_id`s of tag rows with the exact tag value, then
fetch each entry, skipping ids that do not resolve. -/
def get_by_tag (st : Store) (v : String) : List KnowledgeRow :=
  (distinct ((st.tags.filter (fun t => t.tag == v)).map
      (fun t => t.knowledge_id))).filterMap
    (fun kid => get_knowledge st kid)

/-- `KnowledgeRepository.get_linked_to` (datatypes repository): select
the distinct `knowledge_id`s of link rows matching both `link_type` and
`target_id`, then fetch each entry. -/
def get_linked_to (st : Store) (lt : LinkType) (tid : Nat) : List KnowledgeRow :=
  (distinct ((st.links.filter
      (fun l => decide (l.link_type = lt) && l.target_id == tid)).map
      (fun l => l.knowledge_id))).filterMap
    (fun kid => get_knowledge st kid)

/-- `KnowledgeRepository.save_knowledge`: add the knowledge row, all tag
rows and all link rows, then commit — one transaction. -/
def save_knowledge (st : Store) (k : KnowledgeRow) (tags : List KnowledgeTagRow)
    (links : List KnowledgeLinkRow) : Store :=
  { st with
    knowledge := st.knowledge ++ [k]
    tags := st.tags ++ tags
    links := st.links ++ links }

/-- The freshly constructed tag row of `supersede`:
`KnowledgeTag(knowledge_id=new_knowledge.id, tag=tag.tag)` — a new row
id, the owning id forced to the new entry, only the tag value taken from
the input row. -/
def freshTag (rowId kid : Nat) (t : KnowledgeTagRow) : KnowledgeTagRow :=
  { id := rowId, knowledge_id := kid, tag := t.tag }

/-- Fresh tag rows for a list of input tags, consuming consecutive ids
from the fresh-id counter. -/
def freshTags (startId kid : Nat) : List KnowledgeTagRow → List KnowledgeTagRow
  | [] => []
  | t :: ts => freshTag startId kid t :: freshTags (startId + 1) kid ts

/-- The freshly constructed link row of `supersede`:
`KnowledgeLink(knowledge_id=new_knowledge.id, link_type=..., target_id=...)`. -/
def freshLink (rowId kid : Nat) (l : KnowledgeLinkRow) : KnowledgeLinkRow :=
  { id := rowId, knowledge_id := kid, link_type := l.link_type,
    target_id := l.target_id }

/-- Fresh link rows for a list of input links. -/
def freshLinks (startId kid : Nat) : List KnowledgeLinkRow → List KnowledgeLinkRow
  | [] => []
  | l :: ls => freshLink startId kid l :: freshLinks (startId + 1) kid ls

/-- The `UPDATE knowledge SET status = deprecated WHERE id = old_id`
effect on one row (also the in-place mutation of the sqlmodel object). -/
def deprecateRow (old_id : Nat) (k : KnowledgeRow) : KnowledgeRow :=
  if k.id = old_id then { k with status := KnowledgeStatus.deprecated } else k

/-- `KnowledgeRepository.supersede` (datatypes repository): look up the
old entry (raising not-found when absent), overwrite the replacement's
`supersedes_id` with `old_id`, mark the old row deprecated in place,
append the new row, and append freshly constructed tag and link rows
bound to the new entry's id; committed as one transaction. -/
def dt_supersede (st : Store) (old_id : Nat) (new : KnowledgeRow)
    (tags : List KnowledgeTagRow) (links : List KnowledgeLinkRow) :
    Except LedgerError Store :=
  match get_knowledge st old_id with
  | none => Except.error (LedgerError.notFound old_id)
  | some _ =>
    Except.ok
      { st with
        knowledge := (st.knowledge.map (deprecateRow old_id)) ++
          [{ new with supersedes_id := some old_id }]
        tags := st.tags ++ freshTags st.nextId new.id tags
        links := st.links ++ freshLinks (st.nextId + tags.length) new.id links
        nextId := st.nextId + tags.length + links.length }

/-- The first link of the list whose target-existence probe fails (the
CLI validation loops exit at the first failure). -/
def firstInvalidLink (st : Store) (links : List KnowledgeLinkRow) :
    Option KnowledgeLinkRow :=
  links.find? (fun l => !(validate_link_target_exists st l.link_type l.target_id))

/-- `cmd_create` of `cli/databases/knowledge.py` after parsing: probe
every link target, rejecting the whole operation at the first failing
probe with nothing persisted; otherwise persist fact, tags and links via
`save_knowledge`. -/
def cmd_create (st : Store) (k : KnowledgeRow) (tags : List KnowledgeTagRow)
    (links : List KnowledgeLinkRow) : Except LedgerError Store :=
  match firstInvalidLink st links with
  | some l => Except.error (LedgerError.linkTargetNotFound l.link_type l.target_id)
  | none => Except.ok (save_knowledge st k tags links)

/-- `KnowledgeRepository.insert_knowledge` (raw-SQL repository). -/
def raw_insert_knowledge (st : Store) (k : KnowledgeRow) : Store :=
  { st with knowledge := st.knowledge ++ [k] }

/-- `KnowledgeRepository.get_by_id` (raw-SQL repository):
`SELECT ... WHERE id = ?` then `fetchone`. -/
def raw_get_by_id (st : Store) (kid : Nat) : Option KnowledgeRow :=
  st.knowledge.find? (fun k => k.id == kid)

/-- Ordering used by `ORDER BY created_at DESC`. -/
def createdDesc (a b : KnowledgeRow) : Prop := b.created_at ≤ a.created_at

instance : DecidableRel createdDesc := fun a b => by
  unfold createdDesc; infer_instance

instance : IsTotal KnowledgeRow createdDesc :=
  ⟨fun a b => Nat.le_total b.created_at a.created_at⟩

instance : IsTrans KnowledgeRow createdDesc :=
  ⟨fun _ _ _ hab hbc => Nat.le_trans hbc hab⟩

/-- `KnowledgeRepository.get_active` (raw-SQL repository):
`SELECT ... WHERE status = active ORDER BY created_at DESC`. -/
def raw_get_active (st : Store) : List KnowledgeRow :=
  List.insertionSort createdDesc
    (st.knowledge.filter (fun k => decide (k.status = KnowledgeStatus.active)))

/-- `KnowledgeRepository.supersede` (raw-SQL repository): insert the new
row with `supersedes_id` column set to `old_id`, then
`UPDATE knowledge SET status = deprecated WHERE id = old_id`; commit.
No existence check is performed here.  Returns the updated store and the
Knowledge model the method rebuilds (`supersedes_id` set to `old_id`). -/
def raw_supersede (st : Store) (old_id : Nat) (new : KnowledgeRow) :
    Store × KnowledgeRow :=
  ({ st with
      knowledge :=
        (st.knowledge ++ [{ new with supersedes_id := some old_id }]).map
          (deprecateRow old_id) },
    { new with supersedes_id := some old_id })

/-- `cmd_supersede` of `scripts/knowledge.py` after parsing: verify the
old entry exists (exiting with not-found otherwise), probe every link
target, call the raw-SQL `supersede`, then insert freshly constructed
tag and link rows bound to the new entry's id. -/
def scripts_cmd_supersede (st : Store) (old_id : Nat) (new : KnowledgeRow)
    (tags : List KnowledgeTagRow) (links : List KnowledgeLinkRow) :
    Except LedgerError Store :=
  match raw_get_by_id st old_id with
  | none => Except.error (LedgerError.notFound old_id)
  | some _ =>
    match firstInvalidLink st links with
    | some l => Except.error (LedgerError.linkTargetNotFound l.link_type l.target_id)
    | none =>
      let p := raw_supersede st old_id new
      let st1 := { p.1 with
        tags := p.1.tags ++ freshTags p.1.nextId p.2.id tags
        nextId := p.1.nextId + tags.length }
      Except.ok { st1 with
        links := st1.links ++ freshLinks st1.nextId p.2.id links
        nextId := st1.nextId + links.length }

end BioArch

namespace BioArch

/-! ### Generic helper lemmas -/

lemma find?_append_of_none {α : Type} (p : α → Bool) :
    ∀ (l₁ l₂ : List α), l₁.find? p = none → (l₁ ++ l₂).find? p = l₂.find? p
  | [], _, _ => rfl
  | a :: l₁, l₂, h => by
    by_cases hp : p a
    · simp [List.find?, hp] at h
    · simp only [List.cons_append, List.find?, hp] at h ⊢
      exact find?_append_of_none p l₁ l₂ h

lemma find?_append_of_some {α : Type} (p : α → Bool) :
    ∀ (l₁ l₂ : List α) (a : α), l₁.find? p = some a → (l₁ ++ l₂).find? p = some a
  | [], _, _, h => by simp [List.find?] at h
  | b :: l₁, l₂, a, h => by
    by_cases hp : p b
    · simp only [List.find?, hp] at h ⊢
      exact h
    · simp only [List.cons_append, List.find?, hp] at h ⊢
      exact find?_append_of_some p l₁ l₂ a h

lemma mem_distinctAux {a : Nat} :
    ∀ (seen l : List Nat), a ∈ distinctAux seen l ↔ a ∈ l ∧ a ∉ seen
  | _, [] => by simp [distinctAux]
  | seen, b :: l => by
    by_cases hb : b ∈ seen
    · rw [distinctAux, if_pos hb, mem_distinctAux seen l]
      constructor
      · exact fun ⟨h1, h2⟩ => ⟨List.mem_cons_of_mem _ h1, h2⟩
      · rintro ⟨h1, h2⟩
        rcases List.mem_cons.mp h1 with rfl | h1
        · exact absurd hb h2
        · exact ⟨h1, h2⟩
    · rw [distinctAux, if_neg hb]
      constructor
      · intro h
        rcases List.mem_cons.mp h with rfl | h
        · exact ⟨List.mem_cons_self _ _, hb⟩
        · have := (mem_distinctAux (b :: seen) l).mp h
          exact ⟨List.mem_cons_of_mem _ this.1,
            fun hs => this.2 (List.mem_cons_of_mem _ hs)⟩
      · rintro ⟨h1, h2⟩
        rcases List.mem_cons.mp h1 with rfl | h1
        · exact List.mem_cons_self _ _
        · by_cases hab : a = b
          · subst hab; exact List.mem_cons_self _ _
          · exact List.mem_cons_of_mem _ ((mem_distinctAux (b :: seen) l).mpr
              ⟨h1, fun hs => by
                rcases List.mem_cons.mp hs with h | h
                · exact hab h
                · exact h2 h⟩)

lemma nodup_distinctAux : ∀ (seen l : List Nat), (distinctAux seen l).Nodup
  | _, [] => List.nodup_nil
  | seen, b :: l => by
    by_cases hb : b ∈ seen
    · rw [distinctAux, if_pos hb]
      exact nodup_distinctAux seen l
    · rw [distinctAux, if_neg hb]
      refine List.nodup_cons.mpr ⟨?_, nodup_distinctAux (b :: seen) l⟩
      intro hmem
      exact ((mem_distinctAux _ _).mp hmem).2 (List.mem_cons_self _ _)

lemma mem_distinct {a : Nat} (l : List Nat) : a ∈ distinct l ↔ a ∈ l := by
  rw [distinct, mem_distinctAux]
  simp

lemma nodup_distinct (l : List Nat) : (distinct l).Nodup :=
  nodup_distinctAux [] l

/-! ### Lemmas about the embedded operations -/

lemma get_knowledge_id_of_eq_some {st : Store} {kid : Nat} {k : KnowledgeRow}
    (h : get_knowledge st kid = some k) : k.id = kid ∧ k ∈ st.knowledge := by
  have h1 := List.find?_some h
  have h2 := List.mem_of_find?_eq_some h
  exact ⟨by simpa using h1, h2⟩

lemma find?_id_eq_some_of_mem :
    ∀ (l : List KnowledgeRow) (k : KnowledgeRow),
      (l.map (fun x => x.id)).Nodup → k ∈ l →
      l.find? (fun x => x.id == k.id) = some k
  | [], k, _, hk => absurd hk (List.not_mem_nil k)
  | a :: l, k, hids, hk => by
    rw [List.map_cons, List.nodup_cons] at hids
    rcases List.mem_cons.mp hk with rfl | hk
    · simp [List.find?]
    · have hne : a.id ≠ k.id := by
        intro h
        exact hids.1 (h ▸ List.mem_map_of_mem (fun x => x.id) hk)
      have : (a.id == k.id) = false := by
        simp [hne]
      simp only [List.find?, this]
      exact find?_id_eq_some_of_mem l k hids.2 hk

lemma get_knowledge_eq_some_of_mem {st : Store} {k : KnowledgeRow}
    (hids : (st.knowledge.map (fun x => x.id)).Nodup) (hk : k ∈ st.knowledge) :
    get_knowledge st k.id = some k :=
  find?_id_eq_some_of_mem st.knowledge k hids hk

lemma get_knowledge_eq_none {st : Store} {kid : Nat}
    (h : ∀ k ∈ st.knowledge, k.id ≠ kid) : get_knowledge st kid = none := by
  rw [get_knowledge, List.find?_eq_none]
  intro k hk
  simpa using h k hk

lemma nodup_filterMap_get (st : Store) :
    ∀ (ids : List Nat), ids.Nodup →
      (ids.filterMap (fun kid => get_knowledge st kid)).Nodup
  | [], _ => List.nodup_nil
  | kid :: ids, h => by
    have h' := List.nodup_cons.mp h
    rw [List.filterMap_cons]
    cases hget : get_knowledge st kid with
    | none => exact nodup_filterMap_get st ids h'.2
    | some k =>
      refine List.nodup_cons.mpr ⟨?_, nodup_filterMap_get st ids h'.2⟩
      intro hmem
      rcases List.mem_filterMap.mp hmem with ⟨kid', hkid', hget'⟩
      have e1 := (get_knowledge_id_of_eq_some hget).1
      have e2 := (get_knowledge_id_of_eq_some hget').1
      have hkk : kid = kid' := by rw [← e1, e2]
      exact h'.1 (by rw [hkk]; exact hkid')

end BioArch

namespace BioArch

lemma freshTags_owner {kid : Nat} :
    ∀ (s : Nat) (ts : List KnowledgeTagRow) (t : KnowledgeTagRow),
      t ∈ freshTags s kid ts → t.knowledge_id = kid
  | _, [], t, h => absurd h (List.not_mem_nil t)
  | s, t' :: ts, t, h => by
    rcases List.mem_cons.mp h with rfl | h
    · rfl
    · exact freshTags_owner (s + 1) ts t h

lemma freshTags_pairs {kid : Nat} :
    ∀ (s : Nat) (ts : List KnowledgeTagRow),
      (freshTags s kid ts).map (fun t => (t.knowledge_id, t.tag)) =
        ts.map (fun t => (kid, t.tag))
  | _, [] => rfl
  | s, t :: ts => by
    simp only [freshTags, List.map_cons, freshTag]
    rw [freshTags_pairs (s + 1) ts]

lemma freshTags_id_ge {kid : Nat} :
    ∀ (s : Nat) (ts : List KnowledgeTagRow) (t : KnowledgeTagRow),
      t ∈ freshTags s kid ts → s ≤ t.id
  | _, [], t, h => absurd h (List.not_mem_nil t)
  | s, t' :: ts, t, h => by
    rcases List.mem_cons.mp h with rfl | h
    · exact Nat.le_refl s
    · exact Nat.le_trans (Nat.le_succ s) (freshTags_id_ge (s + 1) ts t h)

lemma freshLinks_owner {kid : Nat} :
    ∀ (s : Nat) (ls : List KnowledgeLinkRow) (l : KnowledgeLinkRow),
      l ∈ freshLinks s kid ls → l.knowledge_id = kid
  | _, [], l, h => absurd h (List.not_mem_nil l)
  | s, l' :: ls, l, h => by
    rcases List.mem_cons.mp h with rfl | h
    · rfl
    · exact freshLinks_owner (s + 1) ls l h

lemma freshLinks_triples {kid : Nat} :
    ∀ (s : Nat) (ls : List KnowledgeLinkRow),
      (freshLinks s kid ls).map (fun l => (l.knowledge_id, l.link_type, l.target_id)) =
        ls.map (fun l => (kid, l.link_type, l.target_id))
  | _, [] => rfl
  | s, l :: ls => by
    simp only [freshLinks, List.map_cons, freshLink]
    rw [freshLinks_triples (s + 1) ls]

lemma freshLinks_id_ge {kid : Nat} :
    ∀ (s : Nat) (ls : List KnowledgeLinkRow) (l : KnowledgeLinkRow),
      l ∈ freshLinks s kid ls → s ≤ l.id
  | _, [], l, h => absurd h (List.not_mem_nil l)
  | s, l' :: ls, l, h => by
    rcases List.mem_cons.mp h with rfl | h
    · exact Nat.le_refl s
    · exact Nat.le_trans (Nat.le_succ s) (freshLinks_id_ge (s + 1) ls l h)

lemma deprecateRow_id (oid : Nat) (k : KnowledgeRow) :
    (deprecateRow oid k).id = k.id := by
  unfold deprecateRow
  split <;> rfl

lemma deprecateRow_status_of_ne {oid : Nat} {k : KnowledgeRow} (h : k.id ≠ oid) :
    deprecateRow oid k = k := by
  unfold deprecateRow
  exact if_neg h

lemma deprecateRow_of_eq {oid : Nat} {k : KnowledgeRow} (h : k.id = oid) :
    deprecateRow oid k = { k with status := KnowledgeStatus.deprecated } := by
  unfold deprecateRow
  exact if_pos h

lemma find?_id_map_deprecate (oid kid : Nat) (l : List KnowledgeRow) :
    (l.map (deprecateRow oid)).find? (fun k => k.id == kid) =
      (l.find? (fun k => k.id == kid)).map (deprecateRow oid) := by
  rw [List.find?_map]
  have hp : ((fun k : KnowledgeRow => k.id == kid) ∘ deprecateRow oid) =
      (fun k : KnowledgeRow => k.id == kid) := by
    funext k
    simp [Function.comp, deprecateRow_id]
  rw [hp]

end BioArch

namespace BioArch

/-- A database with no rows in any table. -/
def emptyStore : Store :=
  { knowledge := [], tags := [], links := [], snps := [], biomarkers := [],
    ingredients := [], supplement_labels := [], supplement_protocols := [],
    nextId := 100 }

/-- C6: for every attempted Fact construction, a confidence strictly
below 0.0 or strictly above 1.0 is rejected with the validation error
(and the value is never clamped: a successful validation returns the
value unchanged), while values inside the closed interval — the
boundaries 0.0 and 1.0 included — are accepted. -/
theorem confidence_closed_interval (v : Rat) :
    ((v < 0 ∨ 1 < v) →
      validate_confidence v =
        Except.error "confidence must be between 0.0 and 1.0") ∧
    ((0 ≤ v ∧ v ≤ 1) → validate_confidence v = Except.ok v) ∧
    (∀ r, validate_confidence v = Except.ok r → r = v) := by
  refine ⟨?_, ?_, ?_⟩
  · intro h
    unfold validate_confidence
    exact if_pos h
  · rintro ⟨h0, h1⟩
    unfold validate_confidence
    refine if_neg ?_
    push_neg
    exact ⟨h0, h1⟩
  · intro r hr
    unfold validate_confidence at hr
    by_cases h : (v < 0 ∨ v > 1)
    · rw [if_pos h] at hr
      exact absurd hr (by simp)
    · rw [if_neg h] at hr
      injection hr with h'
      exact h'.symm

/-- Witness for C6: confidence 3/2 is rejected, -1/2 is rejected, and
the boundary values 0 and 1 are accepted unchanged. -/
theorem confidence_closed_interval_witness :
    validate_confidence (3 / 2 : Rat) =
      Except.error "confidence must be between 0.0 and 1.0" ∧
    validate_confidence (-(1 / 2) : Rat) =
      Except.error "confidence must be between 0.0 and 1.0" ∧
    validate_confidence (0 : Rat) = Except.ok 0 ∧
    validate_confidence (1 : Rat) = Except.ok 1 :=
  ⟨(confidence_closed_interval (3 / 2)).1 (Or.inr (by norm_num)),
   (confidence_closed_interval (-(1 / 2))).1 (Or.inl (by norm_num)),
   (confidence_closed_interval 0).2.1 ⟨le_refl 0, by norm_num⟩,
   (confidence_closed_interval 1).2.1 ⟨by norm_num, le_refl 1⟩⟩

/-- A Fact whose summary and content are both empty strings. -/
def emptySummaryFact : KnowledgeRow :=
  { id := 50, type := KnowledgeType.insight, status := KnowledgeStatus.active,
    summary := "", content := "", confidence := 1 / 2, supersedes_id := none,
    supersession_reason := none, created_at := 10 }

/-- C5 counterexample: a Fact with empty summary and empty content
passes model validation (only confidence is checked, nothing rejects
empty texts), and after `save_knowledge` the empty-summary Fact is
persisted and retrievable by id — refuting both that the Ledger rejects
such a Fact with a ValidationError and that every persisted Fact has
non-empty summary and content. -/
theorem empty_summary_accepted :
    knowledge_model_validate emptySummaryFact = Except.ok emptySummaryFact ∧
    emptySummaryFact.summary = "" ∧
    emptySummaryFact.content = "" ∧
    get_knowledge (save_knowledge emptyStore emptySummaryFact [] []) 50 =
      some emptySummaryFact := by
  have hv : validate_confidence (1 / 2 : Rat) = Except.ok (1 / 2) := by
    unfold validate_confidence
    rw [if_neg]
    push_neg
    norm_num
  refine ⟨?_, rfl, rfl, rfl⟩
  unfold knowledge_model_validate
  rw [show emptySummaryFact.confidence = (1 / 2 : Rat) from rfl, hv]

/-- C5 amended: the Ledger does not re-assert non-emptiness of summary
or content; construction of a Fact validates exactly that confidence
lies in the closed interval [0, 1] — acceptance is independent of the
summary and content fields, so empty texts are accepted and can be
persisted. -/
theorem model_validation_only_checks_confidence (k : KnowledgeRow) :
    knowledge_model_validate k = Except.ok k ↔
      0 ≤ k.confidence ∧ k.confidence ≤ 1 := by
  unfold knowledge_model_validate validate_confidence
  by_cases h : (k.confidence < 0 ∨ k.confidence > 1)
  · rw [if_pos h]
    show (Except.error "confidence must be between 0.0 and 1.0" :
        Except String KnowledgeRow) = Except.ok k ↔
      0 ≤ k.confidence ∧ k.confidence ≤ 1
    constructor
    · intro hc
      exact absurd hc (by simp)
    · rintro ⟨h0, h1⟩
      rcases h with h | h
      · exact absurd h (not_lt.mpr h0)
      · exact absurd h (not_lt.mpr h1)
  · rw [if_neg h]
    push_neg at h
    show (Except.ok k : Except String KnowledgeRow) = Except.ok k ↔
      0 ≤ k.confidence ∧ k.confidence ≤ 1
    simp [h.1, h.2]

end BioArch

namespace BioArch

/-- C7: for every tag value, `get_by_tag` returns the distinct set of
Facts — of any status — owning at least one tag row whose value equals
the queried value exactly; a Fact storing the same tag value more than
once appears in the result exactly once (assuming the primary-key
invariant that knowledge ids are unique). -/
theorem find_by_tag_distinct_exact (st : Store) (v : String)
    (hids : (st.knowledge.map (fun x => x.id)).Nodup) :
    (∀ k, k ∈ get_by_tag st v ↔
      k ∈ st.knowledge ∧ ∃ t ∈ st.tags, t.knowledge_id = k.id ∧ t.tag = v) ∧
    ∀ k, k ∈ get_by_tag st v → (get_by_tag st v).count k = 1 := by
  have hmem : ∀ k, k ∈ get_by_tag st v ↔
      k ∈ st.knowledge ∧ ∃ t ∈ st.tags, t.knowledge_id = k.id ∧ t.tag = v := by
    intro k
    unfold get_by_tag
    rw [List.mem_filterMap]
    constructor
    · rintro ⟨kid, hkid, hget⟩
      obtain ⟨heq, hkmem⟩ := get_knowledge_id_of_eq_some hget
      rcases List.mem_map.mp ((mem_distinct _).mp hkid) with ⟨t, ht, hteq⟩
      rcases List.mem_filter.mp ht with ⟨htags, htag⟩
      refine ⟨hkmem, t, htags, ?_, by simpa using htag⟩
      rw [hteq, heq]
    · rintro ⟨hk, t, ht, hkid, htag⟩
      refine ⟨k.id, (mem_distinct _).mpr ?_, get_knowledge_eq_some_of_mem hids hk⟩
      exact List.mem_map.mpr ⟨t, List.mem_filter.mpr ⟨ht, by simp [htag]⟩, hkid⟩
  have hnd : (get_by_tag st v).Nodup := by
    unfold get_by_tag
    exact nodup_filterMap_get st _ (nodup_distinct _)
  exact ⟨hmem, fun k hk => List.count_eq_one_of_mem hnd hk⟩

/-- Active Fact with id 1 used by the concrete query examples. -/
def qFactA : KnowledgeRow :=
  { id := 1, type := KnowledgeType.insight, status := KnowledgeStatus.active,
    summary := "a", content := "a", confidence := 1, supersedes_id := none,
    supersession_reason := none, created_at := 1 }

/-- Deprecated Fact with id 2 used by the concrete query examples. -/
def qFactB : KnowledgeRow :=
  { qFactA with id := 2, status := KnowledgeStatus.deprecated, created_at := 2 }

/-- Store where Fact 1 stores the tag value "x" twice and the
deprecated Fact 2 stores it once. -/
def tagStore : Store :=
  { emptyStore with
    knowledge := [qFactA, qFactB]
    tags := [{ id := 10, knowledge_id := 1, tag := "x" },
             { id := 11, knowledge_id := 1, tag := "x" },
             { id := 12, knowledge_id := 2, tag := "x" }] }

/-- Witness for C7: with the tag value "x" stored twice on Fact 1, the
lookup returns Fact 1 exactly once, and also returns the deprecated
Fact 2 exactly once. -/
theorem find_by_tag_distinct_exact_witness :
    (get_by_tag tagStore "x").count qFactA = 1 ∧
    (get_by_tag tagStore "x").count qFactB = 1 :=
  ⟨(find_by_tag_distinct_exact tagStore "x" (by decide)).2 qFactA (by decide),
   (find_by_tag_distinct_exact tagStore "x" (by decide)).2 qFactB (by decide)⟩

/-- C8: `get_linked_to` returns the distinct set of Facts owning a link
row matching both the queried link kind and the queried target id
exactly; a link with the right target under a different kind is not a
hit (assuming the primary-key invariant that knowledge ids are
unique). -/
theorem find_by_link_exact_pair (st : Store) (lt : LinkType) (tid : Nat)
    (hids : (st.knowledge.map (fun x => x.id)).Nodup) :
    (∀ k, k ∈ get_linked_to st lt tid ↔
      k ∈ st.knowledge ∧ ∃ l ∈ st.links, l.knowledge_id = k.id ∧
        l.link_type = lt ∧ l.target_id = tid) ∧
    ∀ k, k ∈ get_linked_to st lt tid → (get_linked_to st lt tid).count k = 1 := by
  have hmem : ∀ k, k ∈ get_linked_to st lt tid ↔
      k ∈ st.knowledge ∧ ∃ l ∈ st.links, l.knowledge_id = k.id ∧
        l.link_type = lt ∧ l.target_id = tid := by
    intro k
    unfold get_linked_to
    rw [List.mem_filterMap]
    constructor
    · rintro ⟨kid, hkid, hget⟩
      obtain ⟨heq, hkmem⟩ := get_knowledge_id_of_eq_some hget
      rcases List.mem_map.mp ((mem_distinct _).mp hkid) with ⟨l, hl, hleq⟩
      rcases List.mem_filter.mp hl with ⟨hlinks, hcond⟩
      rw [Bool.and_eq_true] at hcond
      refine ⟨hkmem, l, hlinks, by rw [hleq, heq], ?_, by simpa using hcond.2⟩
      simpa using hcond.1
    · rintro ⟨hk, l, hl, hkid, hkind, htid⟩
      refine ⟨k.id, (mem_distinct _).mpr ?_, get_knowledge_eq_some_of_mem hids hk⟩
      refine List.mem_map.mpr ⟨l, List.mem_filter.mpr ⟨hl, ?_⟩, hkid⟩
      rw [Bool.and_eq_true]
      exact ⟨by simp [hkind], by simp [htid]⟩
  have hnd : (get_linked_to st lt tid).Nodup := by
    unfold get_linked_to
    exact nodup_filterMap_get st _ (nodup_distinct _)
  exact ⟨hmem, fun k hk => List.count_eq_one_of_mem hnd hk⟩

/-- Store where Fact 1 owns one link of kind snp targeting id 7. -/
def linkStore : Store :=
  { emptyStore with
    knowledge := [qFactA]
    links := [{ id := 20, knowledge_id := 1, link_type := LinkType.snp,
                target_id := 7 }] }

/-- Witness for C8: the snp link targeting 7 makes Fact 1 a hit of
`get_linked_to snp 7` exactly once, while `get_linked_to biomarker 7`
does not return it. -/
theorem find_by_link_exact_pair_witness :
    (get_linked_to linkStore LinkType.snp 7).count qFactA = 1 ∧
    qFactA ∉ get_linked_to linkStore LinkType.biomarker 7 := by
  refine ⟨(find_by_link_exact_pair linkStore LinkType.snp 7 (by decide)).2
    qFactA (by decide), ?_⟩
  intro h
  rcases ((find_by_link_exact_pair linkStore LinkType.biomarker 7
      (by decide)).1 qFactA).mp h with ⟨-, l, hl, -, hkind, -⟩
  rcases List.mem_singleton.mp hl with rfl
  exact absurd hkind (by decide)

end BioArch

namespace BioArch

lemma mem_active_map_deprecate {oid : Nat} {l : List KnowledgeRow}
    {k : KnowledgeRow}
    (h : k ∈ (l.map (deprecateRow oid)).filter
      (fun x => decide (x.status = KnowledgeStatus.active))) : k.id ≠ oid := by
  rcases List.mem_filter.mp h with ⟨hmem, hstat⟩
  rcases List.mem_map.mp hmem with ⟨k0, hk0, rfl⟩
  intro hid
  rw [deprecateRow_id] at hid
  have h2 := of_decide_eq_true hstat
  rw [deprecateRow_of_eq hid] at h2
  exact absurd h2 (by simp)

/-- C1: after a successful `supersede` on the datatypes repository, the
old Fact is retrievable via its id with status deprecated; the new Fact
is retrievable via its id with status active and `supersedes_id =
old_id` — the `supersedes_id` the caller set on the replacement is
overwritten by the operation — and the active listing contains the new
Fact's id but no longer the old id. -/
theorem supersede_postconditions (st : Store) (old_id : Nat)
    (old new : KnowledgeRow) (tags : List KnowledgeTagRow)
    (links : List KnowledgeLinkRow) (st' : Store)
    (hold : get_knowledge st old_id = some old)
    (hstatus : new.status = KnowledgeStatus.active)
    (hfresh : ∀ k ∈ st.knowledge, k.id ≠ new.id)
    (hne : new.id ≠ old_id)
    (hrun : dt_supersede st old_id new tags links = Except.ok st') :
    get_knowledge st' old_id =
      some { old with status := KnowledgeStatus.deprecated } ∧
    get_knowledge st' new.id =
      some { new with supersedes_id := some old_id } ∧
    ({ new with supersedes_id := some old_id } : KnowledgeRow).status =
      KnowledgeStatus.active ∧
    new.id ∈ (list_active st').map (fun k => k.id) ∧
    old_id ∉ (list_active st').map (fun k => k.id) := by
  unfold dt_supersede at hrun
  rw [hold] at hrun
  injection hrun with hrun
  subst hrun
  have holdid : old.id = old_id := (get_knowledge_id_of_eq_some hold).1
  have hfind : (st.knowledge.map (deprecateRow old_id)).find?
      (fun k => k.id == old_id) = some (deprecateRow old_id old) := by
    rw [find?_id_map_deprecate,
      show st.knowledge.find? (fun k => k.id == old_id) = some old from hold]
    rfl
  have hnone : (st.knowledge.map (deprecateRow old_id)).find?
      (fun k => k.id == new.id) = none := by
    rw [find?_id_map_deprecate,
      show st.knowledge.find? (fun k => k.id == new.id) = none from
        get_knowledge_eq_none hfresh]
    rfl
  refine ⟨?_, ?_, hstatus, ?_, ?_⟩
  · show (st.knowledge.map (deprecateRow old_id) ++
        [{ new with supersedes_id := some old_id }]).find?
        (fun k : KnowledgeRow => k.id == old_id) = _
    rw [find?_append_of_some _ _ _ _ hfind, deprecateRow_of_eq holdid]
  · show (st.knowledge.map (deprecateRow old_id) ++
        [{ new with supersedes_id := some old_id }]).find?
        (fun k : KnowledgeRow => k.id == new.id) = _
    rw [find?_append_of_none _ _ _ hnone]
    simp [List.find?]
  · refine List.mem_map.mpr ⟨{ new with supersedes_id := some old_id }, ?_, rfl⟩
    show _ ∈ (st.knowledge.map (deprecateRow old_id) ++
        [{ new with supersedes_id := some old_id }]).filter
        (fun x : KnowledgeRow => decide (x.status = KnowledgeStatus.active))
    refine List.mem_filter.mpr
      ⟨List.mem_append_right _ (List.mem_singleton_self _), ?_⟩
    simpa using hstatus
  · intro h
    rcases List.mem_map.mp h with ⟨k, hk, hkid⟩
    have hk' : k ∈ (st.knowledge.map (deprecateRow old_id) ++
        [{ new with supersedes_id := some old_id }]).filter
        (fun x : KnowledgeRow => decide (x.status = KnowledgeStatus.active)) := hk
    rw [List.filter_append] at hk'
    rcases List.mem_append.mp hk' with hk1 | hk2
    · exact (mem_active_map_deprecate hk1) hkid
    · rcases List.mem_filter.mp hk2 with ⟨hm, -⟩
      rcases List.mem_singleton.mp hm with rfl
      exact hne hkid

end BioArch

namespace BioArch

/-- Replacement Fact used by the concrete supersede examples; its
caller-set `supersedes_id` points at a bogus id 99 that the operation
must overwrite. -/
def newFactB2 : KnowledgeRow :=
  { id := 4, type := KnowledgeType.recommendation,
    status := KnowledgeStatus.active, summary := "b2", content := "b2",
    confidence := 1, supersedes_id := some 99,
    supersession_reason := some "update", created_at := 4 }

/-- Store holding only Fact 1, about to be superseded. -/
def supStore : Store := { emptyStore with knowledge := [qFactA] }

/-- The store produced by superseding Fact 1 with Fact 4 in
`supStore`. -/
def supResult : Store :=
  { supStore with
    knowledge := [{ qFactA with status := KnowledgeStatus.deprecated },
      { newFactB2 with supersedes_id := some 1 }] }

/-- Witness for C1: superseding Fact 1 by Fact 4 in the concrete store
deprecates Fact 1, stores Fact 4 active with `supersedes_id = 1`
(overwriting the caller-set 99), and the active listing has id 4 but
not id 1. -/
theorem supersede_postconditions_witness :
    get_knowledge supResult 1 =
      some { qFactA with status := KnowledgeStatus.deprecated } ∧
    get_knowledge supResult newFactB2.id =
      some { newFactB2 with supersedes_id := some 1 } ∧
    ({ newFactB2 with supersedes_id := some 1 } : KnowledgeRow).status =
      KnowledgeStatus.active ∧
    newFactB2.id ∈ (list_active supResult).map (fun k => k.id) ∧
    1 ∉ (list_active supResult).map (fun k => k.id) :=
  supersede_postconditions supStore 1 qFactA newFactB2 [] [] supResult
    (by rfl) (by rfl) (by decide) (by decide) (by rfl)

lemma length_filter_id_map_deprecate (oid kid : Nat) (l : List KnowledgeRow) :
    ((l.map (deprecateRow oid)).filter
      (fun k : KnowledgeRow => k.id == kid)).length =
      (l.filter (fun k : KnowledgeRow => k.id == kid)).length := by
  induction l with
  | nil => rfl
  | cons a l ih =>
    by_cases h : (a.id == kid) = true
    · have h' : ((deprecateRow oid a).id == kid) = true := by
        rw [deprecateRow_id]; exact h
      simp only [List.map_cons, List.filter_cons, h, h', if_pos,
        List.length_cons, ih]
    · have hb : (a.id == kid) = false := by simpa using h
      have h' : ((deprecateRow oid a).id == kid) = false := by
        rw [deprecateRow_id]; exact hb
      simp only [List.map_cons, List.filter_cons, hb, h',
        Bool.false_eq_true, if_neg, ih]
      exact ih

/-- C9: a successful `supersede` changes the old Fact only by flipping
its status to deprecated, applied in place: the row retrieved for
`old_id` afterwards is the old Fact with only the status field changed
(id, kind, summary, content, confidence, supersedes, reason and
created_at all unchanged), and the number of rows bearing the old id is
unchanged — no new row is created for the old Fact. -/
theorem supersede_frame_old_fact (st : Store) (old_id : Nat)
    (old new : KnowledgeRow) (tags : List KnowledgeTagRow)
    (links : List KnowledgeLinkRow) (st' : Store)
    (hold : get_knowledge st old_id = some old)
    (hne : new.id ≠ old_id)
    (hrun : dt_supersede st old_id new tags links = Except.ok st') :
    get_knowledge st' old_id =
      some { old with status := KnowledgeStatus.deprecated } ∧
    ({ old with status := KnowledgeStatus.deprecated } : KnowledgeRow).id =
      old.id ∧
    ({ old with status := KnowledgeStatus.deprecated } : KnowledgeRow).type =
      old.type ∧
    ({ old with status := KnowledgeStatus.deprecated } : KnowledgeRow).summary =
      old.summary ∧
    ({ old with status := KnowledgeStatus.deprecated } : KnowledgeRow).content =
      old.content ∧
    ({ old with status := KnowledgeStatus.deprecated } :
      KnowledgeRow).confidence = old.confidence ∧
    ({ old with status := KnowledgeStatus.deprecated } :
      KnowledgeRow).supersedes_id = old.supersedes_id ∧
    ({ old with status := KnowledgeStatus.deprecated } :
      KnowledgeRow).supersession_reason = old.supersession_reason ∧
    ({ old with status := KnowledgeStatus.deprecated } :
      KnowledgeRow).created_at = old.created_at ∧
    (st'.knowledge.filter (fun k : KnowledgeRow => k.id == old_id)).length =
      (st.knowledge.filter (fun k : KnowledgeRow => k.id == old_id)).length := by
  unfold dt_supersede at hrun
  rw [hold] at hrun
  injection hrun with hrun
  subst hrun
  have holdid : old.id = old_id := (get_knowledge_id_of_eq_some hold).1
  have hfind : (st.knowledge.map (deprecateRow old_id)).find?
      (fun k => k.id == old_id) = some (deprecateRow old_id old) := by
    rw [find?_id_map_deprecate,
      show st.knowledge.find? (fun k => k.id == old_id) = some old from hold]
    rfl
  refine ⟨?_, rfl, rfl, rfl, rfl, rfl, rfl, rfl, rfl, ?_⟩
  · show (st.knowledge.map (deprecateRow old_id) ++
        [{ new with supersedes_id := some old_id }]).find?
        (fun k : KnowledgeRow => k.id == old_id) = _
    rw [find?_append_of_some _ _ _ _ hfind, deprecateRow_of_eq holdid]
  · show ((st.knowledge.map (deprecateRow old_id) ++
        [{ new with supersedes_id := some old_id }]).filter
        (fun k : KnowledgeRow => k.id == old_id)).length = _
    rw [List.filter_append]
    have h1 : ([{ new with supersedes_id := some old_id }] :
        List KnowledgeRow).filter (fun k : KnowledgeRow => k.id == old_id) =
        [] := by
      have : (({ new with supersedes_id := some old_id } :
          KnowledgeRow).id == old_id) = false := by simpa using hne
      simp [List.filter, this]
    rw [h1, List.append_nil, length_filter_id_map_deprecate]

/-- Witness for C9 at the concrete store: after superseding Fact 1 by
Fact 4, the row for id 1 is Fact 1 with status deprecated, all other
fields unchanged, and the row count for id 1 is unchanged. -/
theorem supersede_frame_old_fact_witness :
    get_knowledge supResult 1 =
      some { qFactA with status := KnowledgeStatus.deprecated } ∧
    ({ qFactA with status := KnowledgeStatus.deprecated } : KnowledgeRow).id =
      qFactA.id ∧
    ({ qFactA with status := KnowledgeStatus.deprecated } : KnowledgeRow).type =
      qFactA.type ∧
    ({ qFactA with status := KnowledgeStatus.deprecated } :
      KnowledgeRow).summary = qFactA.summary ∧
    ({ qFactA with status := KnowledgeStatus.deprecated } :
      KnowledgeRow).content = qFactA.content ∧
    ({ qFactA with status := KnowledgeStatus.deprecated } :
      KnowledgeRow).confidence = qFactA.confidence ∧
    ({ qFactA with status := KnowledgeStatus.deprecated } :
      KnowledgeRow).supersedes_id = qFactA.supersedes_id ∧
    ({ qFactA with status := KnowledgeStatus.deprecated } :
      KnowledgeRow).supersession_reason = qFactA.supersession_reason ∧
    ({ qFactA with status := KnowledgeStatus.deprecated } :
      KnowledgeRow).created_at = qFactA.created_at ∧
    (supResult.knowledge.filter (fun k : KnowledgeRow => k.id == 1)).length =
      (supStore.knowledge.filter (fun k : KnowledgeRow => k.id == 1)).length :=
  supersede_frame_old_fact supStore 1 qFactA newFactB2 [] [] supResult
    (by rfl) (by decide) (by rfl)

end BioArch

namespace BioArch

/-- C4: superseding an old id that does not resolve to an existing Fact
fails with the not-found error and persists nothing, on both stacks:
the datatypes repository `supersede` checks existence first, and the
scripts workflow verifies existence before touching the store; the
failing call returns no new store, so on the unchanged store the
replacement's id is absent and no Fact changed status. -/
theorem supersede_missing_old_fails (st : Store) (old_id : Nat)
    (new : KnowledgeRow) (tags : List KnowledgeTagRow)
    (links : List KnowledgeLinkRow)
    (hmiss : get_knowledge st old_id = none)
    (hfresh : ∀ k ∈ st.knowledge, k.id ≠ new.id) :
    dt_supersede st old_id new tags links =
      Except.error (LedgerError.notFound old_id) ∧
    scripts_cmd_supersede st old_id new tags links =
      Except.error (LedgerError.notFound old_id) ∧
    get_knowledge st new.id = none := by
  have hraw : raw_get_by_id st old_id = none := hmiss
  refine ⟨?_, ?_, get_knowledge_eq_none hfresh⟩
  · unfold dt_supersede
    rw [hmiss]
  · unfold scripts_cmd_supersede
    rw [hraw]

/-- Witness for C4: superseding the unused id 77 in the one-Fact store
fails with not-found on both stacks and Fact 4 is nowhere stored. -/
theorem supersede_missing_old_fails_witness :
    dt_supersede supStore 77 newFactB2 [] [] =
      Except.error (LedgerError.notFound 77) ∧
    scripts_cmd_supersede supStore 77 newFactB2 [] [] =
      Except.error (LedgerError.notFound 77) ∧
    get_knowledge supStore newFactB2.id = none :=
  supersede_missing_old_fails supStore 77 newFactB2 [] [] (by rfl) (by decide)

/-- C3: the create workflow probes, for every link, that the target id
exists in the table designated by the link kind; if any probe fails the
whole create is rejected with the (kind, target) of a failing link and
nothing is persisted — on the unchanged store the Fact id is absent and
owns no tags — and if every probe passes, the Fact, all tags and all
links are persisted together in the single `save_knowledge` commit. -/
theorem create_link_validation_atomic (st : Store) (k : KnowledgeRow)
    (tags : List KnowledgeTagRow) (links : List KnowledgeLinkRow)
    (hkfresh : ∀ k' ∈ st.knowledge, k'.id ≠ k.id)
    (htfresh : ∀ t ∈ st.tags, t.knowledge_id ≠ k.id) :
    ((∃ l ∈ links,
        validate_link_target_exists st l.link_type l.target_id = false) →
      ∃ l ∈ links,
        validate_link_target_exists st l.link_type l.target_id = false ∧
        cmd_create st k tags links =
          Except.error (LedgerError.linkTargetNotFound l.link_type l.target_id) ∧
        get_knowledge st k.id = none ∧
        get_tags_for_knowledge st k.id = []) ∧
    ((∀ l ∈ links,
        validate_link_target_exists st l.link_type l.target_id = true) →
      cmd_create st k tags links = Except.ok (save_knowledge st k tags links) ∧
      (save_knowledge st k tags links).knowledge = st.knowledge ++ [k] ∧
      (save_knowledge st k tags links).tags = st.tags ++ tags ∧
      (save_knowledge st k tags links).links = st.links ++ links) := by
  constructor
  · intro hbad
    cases hfind : firstInvalidLink st links with
    | none =>
      exfalso
      rcases hbad with ⟨l, hl, hv⟩
      rw [firstInvalidLink, List.find?_eq_none] at hfind
      exact hfind l hl (by rw [hv]; rfl)
    | some l₀ =>
      have hfind' : links.find?
          (fun l => !(validate_link_target_exists st l.link_type l.target_id)) =
          some l₀ := hfind
      have hl₀ := List.mem_of_find?_eq_some hfind'
      have hv := List.find?_some hfind'
      refine ⟨l₀, hl₀, by simpa using hv, ?_, get_knowledge_eq_none hkfresh, ?_⟩
      · unfold cmd_create
        rw [hfind]
      · unfold get_tags_for_knowledge
        rw [show st.tags.filter (fun t => t.knowledge_id == k.id) = [] from
          List.filter_eq_nil_iff.mpr (fun t ht => by simpa using htfresh t ht)]
        rfl
  · intro hok
    have hnone : firstInvalidLink st links = none := by
      rw [firstInvalidLink, List.find?_eq_none]
      intro l hl
      rw [hok l hl]
      simp
    refine ⟨?_, rfl, rfl, rfl⟩
    unfold cmd_create
    rw [hnone]

/-- Store whose biomarkers table holds only id 5. -/
def biomarkerStore : Store := { emptyStore with biomarkers := [5] }

/-- Fact id 6, to be created in the concrete create examples. -/
def createFact : KnowledgeRow := { qFactA with id := 6 }

/-- Tag bound to Fact 6. -/
def createTag : KnowledgeTagRow := { id := 30, knowledge_id := 6, tag := "t" }

/-- Link from Fact 6 to the existing biomarker 5. -/
def goodLink : KnowledgeLinkRow :=
  { id := 40, knowledge_id := 6, link_type := LinkType.biomarker,
    target_id := 5 }

/-- Link from Fact 6 to the nonexistent biomarker 9. -/
def badLink : KnowledgeLinkRow :=
  { id := 41, knowledge_id := 6, link_type := LinkType.biomarker,
    target_id := 9 }

/-- Witness for C3: creating Fact 6 with a link to the missing
biomarker 9 fails with that (kind, target) and the store still has no
Fact 6 and no tags for it; creating it with a link to the existing
biomarker 5 succeeds and persists all rows. -/
theorem create_link_validation_atomic_witness :
    cmd_create biomarkerStore createFact [createTag] [badLink] =
      Except.error (LedgerError.linkTargetNotFound LinkType.biomarker 9) ∧
    get_knowledge biomarkerStore createFact.id = none ∧
    get_tags_for_knowledge biomarkerStore createFact.id = [] ∧
    cmd_create biomarkerStore createFact [createTag] [goodLink] =
      Except.ok (save_knowledge biomarkerStore createFact [createTag]
        [goodLink]) := by
  rcases (create_link_validation_atomic biomarkerStore createFact [createTag]
      [badLink] (by decide) (by decide)).1 ⟨badLink, by decide, by decide⟩ with
    ⟨l, hl, -, herr, habsent, hnotags⟩
  rcases List.mem_singleton.mp hl with rfl
  refine ⟨herr, habsent, hnotags, ?_⟩
  exact ((create_link_validation_atomic biomarkerStore createFact [createTag]
    [goodLink] (by decide) (by decide)).2
    (fun l hl => by rcases List.mem_singleton.mp hl with rfl; decide)).1

end BioArch

namespace BioArch

/-- Fact B of the listing scenario: id 2, created at t=2. -/
def factB : KnowledgeRow := { qFactA with id := 2, created_at := 2 }

/-- Fact C of the listing scenario: id 3, created at t=3. -/
def factC : KnowledgeRow := { qFactA with id := 3, created_at := 3 }

/-- The claim's scenario on the datatypes stack: create A(t=1), B(t=2),
C(t=3). -/
def dtListStore : Store :=
  save_knowledge (save_knowledge (save_knowledge emptyStore qFactA [] [])
    factB [] []) factC [] []

/-- The store after superseding B by B2(t=4) on the datatypes stack. -/
def c2DtResult : Store :=
  match dt_supersede dtListStore 2 newFactB2 [] [] with
  | Except.ok s => s
  | Except.error _ => emptyStore

/-- C2 counterexample: running the claim's concrete scenario — A(t=1),
B(t=2), C(t=3), supersede B by B2(t=4) — on the datatypes repository,
`list_active` (which has no ORDER BY) returns the active Facts in table
order [A, C, B2], i.e. ids [1, 3, 4], not the claimed created_at
descending order [B2, C, A] = ids [4, 3, 1]; the result is not sorted
by created_at descending. -/
theorem list_active_unordered_counterexample :
    dt_supersede dtListStore 2 newFactB2 [] [] = Except.ok c2DtResult ∧
    (list_active c2DtResult).map (fun k => k.id) = [1, 3, 4] ∧
    ([1, 3, 4] : List Nat) ≠ [4, 3, 1] ∧
    ¬ List.Sorted createdDesc (list_active c2DtResult) := by
  refine ⟨rfl, rfl, by decide, ?_⟩
  intro hsort
  have heq : list_active c2DtResult =
      [qFactA, factC, { newFactB2 with supersedes_id := some 2 }] := rfl
  rw [heq] at hsort
  have h1 := (List.sorted_cons.mp hsort).1 factC (List.mem_cons_self _ _)
  exact absurd h1 (by decide)

/-- The claim's scenario on the scripts stack: insert A(t=1), B(t=2),
C(t=3) via the raw-SQL repository. -/
def rawListStore : Store :=
  raw_insert_knowledge (raw_insert_knowledge
    (raw_insert_knowledge emptyStore qFactA) factB) factC

/-- The store after the scripts supersede of B by B2(t=4). -/
def rawScenarioResult : Store :=
  match scripts_cmd_supersede rawListStore 2 newFactB2 [] [] with
  | Except.ok s => s
  | Except.error _ => emptyStore

/-- C2 amended: both listings return exactly the Facts whose status is
active (deprecated Facts excluded); the raw-SQL repository's
`get_active` additionally orders them by created_at descending — on the
claim's concrete scenario (A(t=1), B(t=2), C(t=3), supersede B by
B2(t=4), run through the scripts stack) it returns ids [B2, C, A] =
[4, 3, 1] — while the datatypes repository's `list_active` preserves
table (insertion) order instead of sorting. -/
theorem active_listing_exact_and_raw_sorted :
    (∀ (st : Store) (k : KnowledgeRow), k ∈ list_active st ↔
      k ∈ st.knowledge ∧ k.status = KnowledgeStatus.active) ∧
    (∀ st : Store, (list_active st).Sublist st.knowledge) ∧
    (∀ (st : Store) (k : KnowledgeRow), k ∈ raw_get_active st ↔
      k ∈ st.knowledge ∧ k.status = KnowledgeStatus.active) ∧
    (∀ st : Store, List.Sorted createdDesc (raw_get_active st)) ∧
    (∀ st : Store, (raw_get_active st).Perm (list_active st)) ∧
    (raw_get_active rawScenarioResult).map (fun k => k.id) = [4, 3, 1] := by
  refine ⟨?_, ?_, ?_, ?_, ?_, ?_⟩
  · intro st k
    simp [list_active, List.mem_filter]
  · intro st
    exact List.filter_sublist _
  · intro st k
    simp [raw_get_active, List.mem_filter]
  · intro st
    exact List.sorted_insertionSort createdDesc _
  · intro st
    exact List.perm_insertionSort createdDesc _
  · rfl

end BioArch

namespace BioArch

/-- C10: every tag and link persisted by a successful `supersede` is a
freshly constructed row whose owning id is the new Fact's id and whose
row id is newly generated from the fresh-id source — whatever `id` or
`knowledge_id` the caller set on the input rows is discarded, only the
payload (tag value; link kind and target) is kept; the tag and link
lookups for the new Fact's id return exactly those rows, and no tag or
link row owned by any other fact id is created by the call. -/
theorem supersede_rebinds_tags_links (st : Store) (old_id : Nat)
    (old new : KnowledgeRow) (tags : List KnowledgeTagRow)
    (links : List KnowledgeLinkRow) (st' : Store)
    (hold : get_knowledge st old_id = some old)
    (htfresh : ∀ t ∈ st.tags, t.knowledge_id ≠ new.id)
    (hlfresh : ∀ l ∈ st.links, l.knowledge_id ≠ new.id)
    (hrun : dt_supersede st old_id new tags links = Except.ok st') :
    st'.tags = st.tags ++ freshTags st.nextId new.id tags ∧
    (freshTags st.nextId new.id tags).map (fun t => (t.knowledge_id, t.tag)) =
      tags.map (fun t => (new.id, t.tag)) ∧
    (∀ t ∈ freshTags st.nextId new.id tags, st.nextId ≤ t.id) ∧
    st'.links = st.links ++ freshLinks (st.nextId + tags.length) new.id links ∧
    (freshLinks (st.nextId + tags.length) new.id links).map
        (fun l => (l.knowledge_id, l.link_type, l.target_id)) =
      links.map (fun l => (new.id, l.link_type, l.target_id)) ∧
    (∀ l ∈ freshLinks (st.nextId + tags.length) new.id links,
      st.nextId ≤ l.id) ∧
    (get_tags_for_knowledge st' new.id).Perm
      (freshTags st.nextId new.id tags) ∧
    (get_links_for_knowledge st' new.id).Perm
      (freshLinks (st.nextId + tags.length) new.id links) ∧
    (∀ t ∈ st'.tags, t ∈ st.tags ∨ t.knowledge_id = new.id) ∧
    (∀ l ∈ st'.links, l ∈ st.links ∨ l.knowledge_id = new.id) := by
  unfold dt_supersede at hrun
  rw [hold] at hrun
  injection hrun with hrun
  subst hrun
  have htagfilter : (st.tags ++ freshTags st.nextId new.id tags).filter
      (fun t : KnowledgeTagRow => t.knowledge_id == new.id) =
      freshTags st.nextId new.id tags := by
    rw [List.filter_append,
      List.filter_eq_nil_iff.mpr (fun t ht => by simpa using htfresh t ht),
      List.nil_append]
    refine List.filter_eq_self.mpr (fun t ht => ?_)
    simpa using freshTags_owner _ _ _ ht
  have hlinkfilter : (st.links ++ freshLinks (st.nextId + tags.length) new.id
      links).filter (fun l : KnowledgeLinkRow => l.knowledge_id == new.id) =
      freshLinks (st.nextId + tags.length) new.id links := by
    rw [List.filter_append,
      List.filter_eq_nil_iff.mpr (fun l hl => by simpa using hlfresh l hl),
      List.nil_append]
    refine List.filter_eq_self.mpr (fun l hl => ?_)
    simpa using freshLinks_owner _ _ _ hl
  refine ⟨rfl, freshTags_pairs _ _, fun t ht => freshTags_id_ge _ _ t ht, rfl,
    freshLinks_triples _ _,
    fun l hl => Nat.le_trans (Nat.le_add_right _ _)
      (freshLinks_id_ge _ _ l hl), ?_, ?_, ?_, ?_⟩
  · show (List.insertionSort tagAsc ((st.tags ++
      freshTags st.nextId new.id tags).filter
      (fun t : KnowledgeTagRow => t.knowledge_id == new.id))).Perm _
    rw [htagfilter]
    exact List.perm_insertionSort tagAsc _
  · show (List.insertionSort linkTypeAsc ((st.links ++
      freshLinks (st.nextId + tags.length) new.id links).filter
      (fun l : KnowledgeLinkRow => l.knowledge_id == new.id))).Perm _
    rw [hlinkfilter]
    exact List.perm_insertionSort linkTypeAsc _
  · intro t ht
    rcases List.mem_append.mp ht with h | h
    · exact Or.inl h
    · exact Or.inr (freshTags_owner _ _ _ h)
  · intro l hl
    rcases List.mem_append.mp hl with h | h
    · exact Or.inl h
    · exact Or.inr (freshLinks_owner _ _ _ h)

/-- Caller-supplied tag with bogus row id 999 and owner 123, to be
rebound by supersede. -/
def strayTag : KnowledgeTagRow := { id := 999, knowledge_id := 123, tag := "x" }

/-- Caller-supplied link with bogus row id 998 and owner 123, to be
rebound by supersede. -/
def strayLink : KnowledgeLinkRow :=
  { id := 998, knowledge_id := 123, link_type := LinkType.snp, target_id := 3 }

/-- The store after superseding Fact 1 by Fact 4 with the stray tag and
link. -/
def rebindResult : Store :=
  match dt_supersede supStore 1 newFactB2 [strayTag] [strayLink] with
  | Except.ok s => s
  | Except.error _ => emptyStore

/-- Witness for C10: superseding with a stray tag and link persists
freshly constructed rows owned by Fact 4 carrying only the payloads,
and the lookups for Fact 4 return exactly them. -/
theorem supersede_rebinds_tags_links_witness :
    rebindResult.tags = supStore.tags ++
      freshTags supStore.nextId newFactB2.id [strayTag] ∧
    (freshTags supStore.nextId newFactB2.id [strayTag]).map
        (fun t => (t.knowledge_id, t.tag)) =
      [strayTag].map (fun t => (newFactB2.id, t.tag)) ∧
    rebindResult.links = supStore.links ++
      freshLinks (supStore.nextId + 1) newFactB2.id [strayLink] ∧
    (freshLinks (supStore.nextId + 1) newFactB2.id [strayLink]).map
        (fun l => (l.knowledge_id, l.link_type, l.target_id)) =
      [strayLink].map (fun l => (newFactB2.id, l.link_type, l.target_id)) ∧
    (get_tags_for_knowledge rebindResult newFactB2.id).Perm
      (freshTags supStore.nextId newFactB2.id [strayTag]) ∧
    (get_links_for_knowledge rebindResult newFactB2.id).Perm
      (freshLinks (supStore.nextId + 1) newFactB2.id [strayLink]) := by
  have h := supersede_rebinds_tags_links supStore 1 qFactA newFactB2
    [strayTag] [strayLink] rebindResult (by rfl) (by decide) (by decide)
    (by rfl)
  exact ⟨h.1, h.2.1, h.2.2.2.1, h.2.2.2.2.1, h.2.2.2.2.2.2.1,
    h.2.2.2.2.2.2.2.1⟩

end BioArch
